import Mathlib

/-
Shallow embedding of the reconciliation engine of `cloud_duplicate_analyzer.py`:
the pairwise file classifier (`classify_pair`), the per-MatchKey group
aggregation loop of `analyze`, the mixed-type recovery pass, the folder
relationship analyzer, the subtree rollup and the safe-to-delete root
selection, together with theorems settling the specified properties.

Modelling conventions:
  * Python dict records become the structure `FileRecord`; verdicts stay the
    snake_case strings the source uses.
  * Timestamps and the mtime fuzz are modelled as `Int` (the source uses
    floating-point seconds; every claim only uses `abs` and `≤`, which the
    embedding preserves verbatim).
  * `md5` reads the filesystem; it is modelled as an oracle
    `md5 : String → String` from a record's `full_path` to a digest, with
    `""` meaning failure, exactly as the source's `md5` returns `""` on
    `OSError`/`PermissionError`.
  * Python sets of strings become `Finset String` (folder file-name sets) or
    deduplicated lists where only membership matters.
-/

set_option maxRecDepth 8000

/-- One file record as produced by `scan_directory` (the analyzer's dicts with
keys `rel_path`, `name`, `name_orig`, `size`, `mtime`, `full_path`, `folder`,
`is_symlink`, `symlink_target`). -/
structure FileRecord where
  relPath : String
  name : String
  nameOrig : String
  size : Int
  mtime : Int
  fullPath : String
  folder : String
  isSymlink : Bool
  symlinkTarget : Option String
deriving DecidableEq

/-- Embedding of `classify_pair(a, b, mtime_fuzz, use_checksum)`.  The `md5`
oracle stands for the source's `md5(path)` helper; `md5 p = ""` models a
digest failure (I/O or permission error), which is exactly how the source
signals it.  The source's local `mtime_same` is inlined at its three use
sites. -/
def classify_pair (md5 : String → String) (a b : FileRecord)
    (mtime_fuzz : Int) (use_checksum : Bool) : Option (String × String) :=
  if a.isSymlink ≠ b.isSymlink then some ("mixed_type", "conflict")
  else if a.isSymlink = true ∧ b.isSymlink = true then
    match a.symlinkTarget, b.symlinkTarget with
    | some ta, some tb =>
        if ta = tb then some ("symlink", "target_identical")
        else some ("symlink", "target_diverged")
    | _, _ => some ("symlink", "target_diverged")
  else if a.name ≠ b.name ∨ a.size ≠ b.size then none
  else if a.size = 0 then some ("identical", "same")
  else if use_checksum = false then
    some ("unverified", if |a.mtime - b.mtime| ≤ mtime_fuzz then "same" else "diverged")
  else if md5 a.fullPath = "" ∨ md5 b.fullPath = "" then
    some ("unverified", if |a.mtime - b.mtime| ≤ mtime_fuzz then "same" else "diverged")
  else if md5 a.fullPath = md5 b.fullPath then
    some ("identical", if |a.mtime - b.mtime| ≤ mtime_fuzz then "same" else "diverged")
  else
    some ("different", if |a.mtime - b.mtime| ≤ mtime_fuzz then "phantom" else "diverged")

/-- The source's `content_rank = {"identical": 0, "unverified": 1, "different": 2}`.
The dict has exactly these keys; the aggregation loop only ever looks up one
of them (symlink / mixed_type verdicts break out of the loop first), so the
catch-all case is never exercised there. -/
def content_rank : String → Nat
  | "identical" => 0
  | "unverified" => 1
  | "different" => 2
  | _ => 0

/-- The source's `version_rank = {"same": 0, "diverged": 1, "phantom": 2}`. -/
def version_rank : String → Nat
  | "same" => 0
  | "diverged" => 1
  | "phantom" => 2
  | _ => 0

/-- `itertools.combinations(l, 2)` in source order. -/
def pairCombos : List α → List (α × α)
  | [] => []
  | x :: xs => xs.map (fun y => (x, y)) ++ pairCombos xs

/-- Outcome of the per-MatchKey loop body of `analyze`: the key is dropped
(`classify_pair` returned `None`), diverted to the symlink bucket, diverted
to a mixed-type conflict group, or folded into a normal group carrying the
aggregated content/version verdicts. -/
inductive KeyOutcome where
  | dropped : KeyOutcome
  | symlinkEntry : String → KeyOutcome
  | mixedConflict : String → KeyOutcome
  | group : String → String → KeyOutcome
deriving DecidableEq

/-- The pair loop of `analyze` for one MatchKey: iterate over the unordered
pairs, stop on a `None` / `symlink` / `mixed_type` result, otherwise keep the
worst-ranked content and version seen so far (`group_content`,
`group_version`). -/
def aggLoop (md5 : String → String) (fuzz : Int) (uc : Bool) :
    List (FileRecord × FileRecord) → String → String → KeyOutcome
  | [], gc, gv => .group gc gv
  | (a, b) :: rest, gc, gv =>
    match classify_pair md5 a b fuzz uc with
    | none => .dropped
    | some (cm, vs) =>
      if cm = "symlink" then .symlinkEntry vs
      else if cm = "mixed_type" then .mixedConflict vs
      else
        aggLoop md5 fuzz uc rest
          (if content_rank gc < content_rank cm then cm else gc)
          (if version_rank gv < version_rank vs then vs else gv)

/-- Aggregation of one MatchKey's records (the first record per directory, in
label order): all unordered pairs are classified starting from
`group_content = "identical"`, `group_version = "same"`. -/
def aggregate_key (md5 : String → String) (fuzz : Int) (uc : Bool)
    (recs : List FileRecord) : KeyOutcome :=
  aggLoop md5 fuzz uc (pairCombos recs) "identical" "same"

/-- Content rank contributed by one pair (`0` in the impossible unclassified
case, which the theorems rule out in the `group` outcome). -/
def pairContentRank (md5 : String → String) (fuzz : Int) (uc : Bool)
    (p : FileRecord × FileRecord) : Nat :=
  match classify_pair md5 p.1 p.2 fuzz uc with
  | some (cm, _) => content_rank cm
  | none => 0

/-- Version rank contributed by one pair. -/
def pairVersionRank (md5 : String → String) (fuzz : Int) (uc : Bool)
    (p : FileRecord × FileRecord) : Nat :=
  match classify_pair md5 p.1 p.2 fuzz uc with
  | some (_, vs) => version_rank vs
  | none => 0

/-- Lower-casing as Python's `str.lower()` on the character list of a string. -/
def lowerStr (s : String) : String :=
  ⟨s.data.map Char.toLower⟩

/-- One directory entry as seen by the `os.walk` of `scan_directory`: either a
regular file (with the result of `Path.stat()`, `none` modelling an
`OSError`/`PermissionError`) or a symlink (with its resolved target, `none`
modelling a resolution failure).  A regular file's `st_size` is a `Nat`:
`os.stat` never reports a negative size. -/
inductive FsEntry where
  | regular : String → String → String → String → Option (Nat × Int) → FsEntry
  | symlink : String → String → String → String → Option String → FsEntry
deriving DecidableEq

/-- The file name of an entry (`fname` in the source's walk loop). -/
def fnameOf : FsEntry → String
  | .regular _ fname _ _ _ => fname
  | .symlink _ fname _ _ _ => fname

/-- Python's `s.startswith(p)` on character lists. -/
def charsLead : List Char → List Char → Bool
  | [], _ => true
  | _ :: _, [] => false
  | a :: asx, b :: bs => a = b && charsLead asx bs

/-- Python's `s.startswith(p)` (the string `s` starts with `p`). -/
def strLeads (p s : String) : Bool :=
  charsLead p.data s.data

/-- The record `scan_directory` appends for one walked entry. -/
def scanEntry : FsEntry → FileRecord
  | .symlink rel fname full folder target =>
    { relPath := rel, name := lowerStr fname, nameOrig := fname, size := -1,
      mtime := 0, fullPath := full, folder := folder, isSymlink := true,
      symlinkTarget := target }
  | .regular rel fname full folder st =>
    { relPath := rel, name := lowerStr fname, nameOrig := fname,
      size := match st with | some (sz, _) => (sz : Int) | none => 0,
      mtime := match st with | some (_, mt) => mt | none => 0,
      fullPath := full, folder := folder, isSymlink := false,
      symlinkTarget := none }

/-- Embedding of `scan_directory`: the walk itself is the scanner's business;
its yielded entries are the input.  `.DS_Store` is always skipped, and hidden
names are skipped when `skip_hidden` is set (directory pruning only removes
further entries and needs no separate modelling). -/
def scan_directory (skip_hidden : Bool) (entries : List FsEntry) : List FileRecord :=
  (entries.filter (fun e =>
      fnameOf e ≠ ".DS_Store" ∧ (skip_hidden = true → strLeads "." (fnameOf e) = false))).map
    scanEntry

/-- The key of `build_name_size_index`: `(r["name"], r["size"])`. -/
def matchKey (r : FileRecord) : String × Int :=
  (r.name, r.size)

/-- The per-directory `rel_path` index
`{r["rel_path"].lower(): r for r in recs}`: on duplicate lowered paths the
later record wins, hence the search over the reversed list. -/
def relPathIndex (recs : List FileRecord) (rp : String) : Option FileRecord :=
  recs.reverse.find? (fun r => lowerStr r.relPath = rp)

/-- `present_in` of the recovery pass for one lowered relative path: the
labels (in directory order) whose `rel_path` index holds a record there. -/
def presentAt (scanned : List (String × List FileRecord)) (rp : String) :
    List (String × FileRecord) :=
  scanned.filterMap (fun lr => (relPathIndex lr.2 rp).map (fun r => (lr.1, r)))

/-- `all_rel_paths`: the set of lowered relative paths over every scanned
directory, modelled as a deduplicated list. -/
def allRelPaths (scanned : List (String × List FileRecord)) : List String :=
  (scanned.flatMap (fun lr => lr.2.map (fun r => lowerStr r.relPath))).dedup

/-- A conflict group emitted by the mixed-type recovery pass (only the fields
the claims mention; the per-service detail fields are derived data). -/
structure MixedGroup where
  relPath : String
  contentMatch : String
  versionStatus : String
deriving DecidableEq

/-- One iteration of the mixed-type detection pass of `analyze`: skip paths
already handled, skip paths present in fewer than two directories, skip
paths whose records are all of one kind, otherwise emit the
`mixed_type`/`conflict` group built from the first present record (fields
set literally; `classify_pair` is never called here). -/
def recoverAt (scanned : List (String × List FileRecord))
    (alreadyHandled : List String) (rp : String) : Option MixedGroup :=
  if rp ∈ alreadyHandled then none
  else if (presentAt scanned rp).length < 2 then none
  else if (presentAt scanned rp).filter (fun p => p.2.isSymlink = true) = [] then none
  else if (presentAt scanned rp).filter (fun p => p.2.isSymlink = false) = [] then none
  else
    match presentAt scanned rp with
    | [] => none
    | p :: _ =>
      some { relPath := p.2.relPath, contentMatch := "mixed_type",
             versionStatus := "conflict" }

/-- The mixed-type detection pass of `analyze` over all relative paths. -/
def recovery_pass (scanned : List (String × List FileRecord))
    (alreadyHandled : List String) : List MixedGroup :=
  (allRelPaths scanned).filterMap (recoverAt scanned alreadyHandled)

/-- Python's `folder.split("/")` (after the source's `replace("\\", "/")`). -/
def splitSlashAux (cur : List Char) : List Char → List String
  | [] => [⟨cur.reverse⟩]
  | c :: cs => if c = '/' then ⟨cur.reverse⟩ :: splitSlashAux [] cs
               else splitSlashAux (c :: cur) cs

/-- `folder.replace("\\", "/").split("/")`. -/
def splitSlash (s : String) : List String :=
  splitSlashAux [] (s.data.map (fun c => if c = '\\' then '/' else c))

/-- Python's `"/".join(parts)`. -/
def joinSlash : List String → String
  | [] => ""
  | [s] => s
  | s :: rest => s ++ "/" ++ joinSlash rest

/-- The ancestor paths `analyze` synthesises for one folder:
`"/".join(parts[:depth])` for `depth` in `1 .. len(parts)-1`, dropping empty
strings and `"."`. -/
def ancestorsOf (folder : String) : List String :=
  (((List.range (splitSlash folder).length).drop 1).map
      (fun depth => joinSlash ((splitSlash folder).take depth))).filter
    (fun p => p ≠ "" ∧ p ≠ ".")

/-- `folder_file_set`: the set of (lowered) file names directly inside a
folder for one directory's records. -/
def folderSet (recs : List FileRecord) (folder : String) : Finset String :=
  ((recs.filter (fun r => r.folder = folder)).map (fun r => r.name)).toFinset

/-- `label_has_presence`: a directory is present at a folder if it has files
directly there or in any descendant folder (prefix match on `folder + "/"`
over the keys of its folder map). -/
def hasPresence (recs : List FileRecord) (folder : String) : Bool :=
  recs.any (fun r => r.folder = folder) ||
  recs.any (fun r => strLeads (folder ++ "/") r.folder)

/-- The folders that directly hold files in some directory (the union of the
per-directory `folder_file_set` key sets). -/
def baseFolders (scanned : List (String × List FileRecord)) : List String :=
  (scanned.flatMap (fun lr => lr.2.map (fun r => r.folder))).dedup

/-- `all_folders` after ancestor synthesis, as a deduplicated list (the
source's `sorted(...)` only fixes report order). -/
def allFolders (scanned : List (String × List FileRecord)) : List String :=
  (baseFolders scanned ++ (baseFolders scanned).flatMap ancestorsOf).dedup

/-- Pairwise folder-set classification of `analyze`: equality, strict
containment either way, otherwise overlap. -/
def pairRel (sa sb : Finset String) : String :=
  if sa = sb then "identical"
  else if sa ⊂ sb then "subset"
  else if sb ⊂ sa then "superset"
  else "overlap"

/-- The folder `relationship` computation of `analyze` on the direct
file-name sets of the present directories (in directory order).  The `[]`
case is unreachable: the caller guarantees at least two present
directories. -/
def relationship : List (Finset String) → String
  | [] => "identical"
  | s0 :: rest =>
    if (s0 :: rest).all (fun s => s = s0) then "identical"
    else
      if ((pairCombos (s0 :: rest)).map (fun p => pairRel p.1 p.2)).toFinset =
          {"identical"} then "identical"
      else if "overlap" ∈ (pairCombos (s0 :: rest)).map (fun p => pairRel p.1 p.2) then
        "overlap"
      else if "subset" ∈ (pairCombos (s0 :: rest)).map (fun p => pairRel p.1 p.2) ∨
          "superset" ∈ (pairCombos (s0 :: rest)).map (fun p => pairRel p.1 p.2) then
        "subset/superset"
      else "overlap"

/-- The folder relationship rule as the specification words it: identical
when all sets are pairwise equal; otherwise overlap when some pair overlaps,
and subset/superset when only containment (possibly with identical pairs)
was seen. -/
def relationship_spec (sets : List (Finset String)) : String :=
  if ((pairCombos sets).map (fun p => pairRel p.1 p.2)).all
      (fun r => r = "identical") then "identical"
  else if "overlap" ∈ (pairCombos sets).map (fun p => pairRel p.1 p.2) then "overlap"
  else "subset/superset"

/-- One folder comparison node (only the fields the claims mention). -/
structure FolderComp where
  path : String
  relationship : String
deriving DecidableEq

/-- `folder if folder != "." else "(root)"`. -/
def pathOf (folder : String) : String :=
  if folder = "." then "(root)" else folder

/-- The `folder_comparisons` list of `analyze`: for every folder (ancestors
synthesised) present in at least two directories, its path and the
relationship of the present directories' direct file-name sets. -/
def folderComparisons (scanned : List (String × List FileRecord)) : List FolderComp :=
  (allFolders scanned).filterMap (fun folder =>
    if (scanned.filter (fun lr => hasPresence lr.2 folder)).length < 2 then none
    else
      some { path := pathOf folder,
             relationship :=
               relationship ((scanned.filter (fun lr => hasPresence lr.2 folder)).map
                 (fun lr => folderSet lr.2 folder)) })

/-- The closed descendant set of the rollup: every comparison when the node
is the synthetic root, otherwise the node itself plus every comparison whose
path extends it with `"/"`. -/
def descendantsOf (fcs : List FolderComp) (path : String) : List FolderComp :=
  if path = "(root)" then fcs
  else fcs.filter (fun fc => fc.path = path || strLeads (path ++ "/") fc.path)

/-- The subtree rollup of `analyze` for one node. -/
def subtree_status (fcs : List FolderComp) (path : String) : String :=
  if (descendantsOf fcs path).all (fun d => d.relationship = "identical") then
    "identical"
  else if (descendantsOf fcs path).any (fun d => d.relationship = "overlap") then
    "overlap"
  else "partial"

/-- The safe-to-delete root selection of `analyze`: comparisons whose subtree
status is identical and that have no identical-subtree proper prefix
ancestor. -/
def safe_to_delete (fcs : List FolderComp) : List FolderComp :=
  (fcs.filter (fun fc => subtree_status fcs fc.path = "identical")).filter
    (fun fc =>
      !(fcs.filter (fun fc2 => subtree_status fcs fc2.path = "identical")).any
        (fun other => fc.path ≠ other.path && strLeads (other.path ++ "/") fc.path))

/-- The claim's folder-descendant relation: path extension with `"/"`, or
anything below the synthetic root folder. -/
def folderDescendant (p q : String) : Prop :=
  (q = "(root)" ∧ p ≠ "(root)") ∨ strLeads (q ++ "/") p = true

/-- Digest oracle for the content-mismatch counterexample: the two copies of
`photos/x.txt` hash differently, every other path hashes to `"h"`. -/
def cexMd5 : String → String :=
  fun p => if p = "/A/photos/x.txt" then "d1" else if p = "/B/photos/x.txt" then "d2" else "h"

/-- Directory A's copy of `photos/x.txt` (content `d1`). -/
def cexXA : FileRecord :=
  { relPath := "photos/x.txt", name := "x.txt", nameOrig := "x.txt", size := 5,
    mtime := 1000, fullPath := "/A/photos/x.txt", folder := "photos",
    isSymlink := false, symlinkTarget := none }

/-- Directory B's copy of `photos/x.txt` (content `d2`, same name, size and
mtime). -/
def cexXB : FileRecord :=
  { relPath := "photos/x.txt", name := "x.txt", nameOrig := "x.txt", size := 5,
    mtime := 1000, fullPath := "/B/photos/x.txt", folder := "photos",
    isSymlink := false, symlinkTarget := none }

/-- Scanned input for the content-mismatch counterexample: each directory
holds exactly `photos/x.txt`. -/
def cexScanC1 : List (String × List FileRecord) :=
  [("A", [cexXA]), ("B", [cexXB])]

/-- A record named `a.txt` at the root of the given tree. -/
def cexRoot (tree : String) : FileRecord :=
  { relPath := "a.txt", name := "a.txt", nameOrig := "a.txt", size := 3,
    mtime := 1000, fullPath := tree ++ "/a.txt", folder := ".",
    isSymlink := false, symlinkTarget := none }

/-- A record `photos/x.jpg` in the given tree. -/
def cexPhoto (tree : String) : FileRecord :=
  { relPath := "photos/x.jpg", name := "x.jpg", nameOrig := "x.jpg", size := 4,
    mtime := 1000, fullPath := tree ++ "/photos/x.jpg", folder := "photos",
    isSymlink := false, symlinkTarget := none }

/-- Scanned input for the synthetic-root counterexample: both directories
hold `a.txt` at the root and `photos/x.jpg`, all names matching. -/
def cexScanC7 : List (String × List FileRecord) :=
  [("A", [cexRoot "/A", cexPhoto "/A"]), ("B", [cexRoot "/B", cexPhoto "/B"])]

/-- A regular-file record at the tree root, used in witnesses. -/
def sampleReg (nm : String) (sz mt : Int) (fp : String) : FileRecord :=
  { relPath := nm, name := nm, nameOrig := nm, size := sz, mtime := mt,
    fullPath := fp, folder := ".", isSymlink := false, symlinkTarget := none }

/-- A symlink record at the tree root, used in witnesses. -/
def sampleLink (nm : String) (tgt : Option String) (fp : String) : FileRecord :=
  { relPath := nm, name := nm, nameOrig := nm, size := -1, mtime := 0,
    fullPath := fp, folder := ".", isSymlink := true, symlinkTarget := tgt }

/-- Every record a scan produces respects the size sentinel discipline:
symlinks carry size `-1`, regular files a nonnegative size. -/
theorem scan_size_inv {skip : Bool} {es : List FsEntry} {r : FileRecord}
    (h : r ∈ scan_directory skip es) :
    (r.isSymlink = true → r.size = -1) ∧ (r.isSymlink = false → 0 ≤ r.size) := by
  rcases List.mem_map.1 h with ⟨e, _, rfl⟩
  cases e with
  | symlink rel fname full folder target => simp [scanEntry]
  | regular rel fname full folder st =>
    cases st with
    | none => simp [scanEntry]
    | some p =>
      rcases p with ⟨sz, mt⟩
      simp [scanEntry]

/-- `classify_pair` only answers `mixed_type` when the two records disagree
on being a symlink. -/
theorem classify_pair_mixed_only {md5 : String → String} {a b : FileRecord}
    {fuzz : Int} {uc : Bool} (h : a.isSymlink = b.isSymlink) :
    classify_pair md5 a b fuzz uc ≠ some ("mixed_type", "conflict") := by
  unfold classify_pair
  rw [if_neg (by simp [h])]
  split
  · split
    · split <;> simp
    · simp
  · split
    · simp
    · split
      · simp
      · split
        · split <;> simp
        · split
          · split <;> simp
          · split
            · split <;> simp
            · split <;> simp

/-- Claim C2: for every pair of regular-file records with equal `nameKey`
and `size == 0`, `classify_pair` returns `(identical, same)` regardless of
mtimes, of the mtime fuzz and of the checksum flag. -/
theorem c2_empty_files (md5 : String → String) (a b : FileRecord)
    (fuzz : Int) (uc : Bool)
    (ha : a.isSymlink = false) (hb : b.isSymlink = false)
    (hn : a.name = b.name) (hsa : a.size = 0) (hsb : b.size = 0) :
    classify_pair md5 a b fuzz uc = some ("identical", "same") := by
  simp [classify_pair, ha, hb, hn, hsa, hsb]

/-- Witness instantiating `c2_empty_files` at two empty files with wildly
different mtimes, checksumming on. -/
theorem c2_witness :
    (sampleReg "e.txt" 0 1000 "/a/e.txt").isSymlink = false ∧
    (sampleReg "e.txt" 0 9000 "/b/e.txt").isSymlink = false ∧
    (sampleReg "e.txt" 0 1000 "/a/e.txt").name = (sampleReg "e.txt" 0 9000 "/b/e.txt").name ∧
    (sampleReg "e.txt" 0 1000 "/a/e.txt").size = 0 ∧
    (sampleReg "e.txt" 0 9000 "/b/e.txt").size = 0 ∧
    classify_pair (fun _ => "h") (sampleReg "e.txt" 0 1000 "/a/e.txt")
      (sampleReg "e.txt" 0 9000 "/b/e.txt") 5 true = some ("identical", "same") :=
  ⟨rfl, rfl, rfl, rfl, rfl,
    c2_empty_files (fun _ => "h") _ _ 5 true rfl rfl rfl rfl rfl⟩

/-- Claim C3: for regular-file pairs with equal name and equal positive
size, whenever checksumming is off or either digest fails, the verdict is
`unverified` with `same`/`diverged` decided by the mtime fuzz alone; the
function is total, so a digest failure can neither raise nor yield another
verdict. -/
theorem c3_unverified_fallback (md5 : String → String) (a b : FileRecord)
    (fuzz : Int) (uc : Bool)
    (ha : a.isSymlink = false) (hb : b.isSymlink = false)
    (hn : a.name = b.name) (hs : a.size = b.size) (hpos : 0 < a.size)
    (hfb : uc = false ∨ md5 a.fullPath = "" ∨ md5 b.fullPath = "") :
    classify_pair md5 a b fuzz uc =
      some ("unverified", if |a.mtime - b.mtime| ≤ fuzz then "same" else "diverged") := by
  have hs0 : ¬ a.size = 0 := by omega
  have hs0b : ¬ b.size = 0 := by omega
  cases uc with
  | false => simp [classify_pair, ha, hb, hn, hs, hs0, hs0b]
  | true =>
    rcases hfb with h | h
    · exact absurd h (by simp)
    · rcases h with h | h <;> simp [classify_pair, ha, hb, hn, hs, hs0, hs0b, h]

/-- Witness instantiating `c3_unverified_fallback` at a pair whose first
digest fails, with mtimes within the fuzz. -/
theorem c3_witness :
    (sampleReg "f.txt" 7 1000 "/a/f.txt").isSymlink = false ∧
    (sampleReg "f.txt" 7 1002 "/b/f.txt").isSymlink = false ∧
    (sampleReg "f.txt" 7 1000 "/a/f.txt").name = (sampleReg "f.txt" 7 1002 "/b/f.txt").name ∧
    (sampleReg "f.txt" 7 1000 "/a/f.txt").size = (sampleReg "f.txt" 7 1002 "/b/f.txt").size ∧
    (0 : Int) < (sampleReg "f.txt" 7 1000 "/a/f.txt").size ∧
    classify_pair (fun p => if p = "/a/f.txt" then "" else "h")
      (sampleReg "f.txt" 7 1000 "/a/f.txt") (sampleReg "f.txt" 7 1002 "/b/f.txt") 5 true =
      some ("unverified",
        if |(sampleReg "f.txt" 7 1000 "/a/f.txt").mtime -
            (sampleReg "f.txt" 7 1002 "/b/f.txt").mtime| ≤ 5 then "same" else "diverged") :=
  ⟨rfl, rfl, rfl, rfl, by decide,
    c3_unverified_fallback (fun p => if p = "/a/f.txt" then "" else "h") _ _ 5 true
      rfl rfl rfl rfl (by decide) (Or.inr (Or.inl (by decide)))⟩

/-- Claim C5: a symlink against a regular file is `(mixed_type, conflict)`;
two symlinks compare by resolved target, `(symlink, target_identical)`
exactly when both targets are non-null and equal and
`(symlink, target_diverged)` otherwise; both rules fire before the
name/size guard, so no name or size hypotheses are needed. -/
theorem c5_symlink_rules (md5 : String → String) (a b : FileRecord)
    (fuzz : Int) (uc : Bool) :
    (a.isSymlink ≠ b.isSymlink →
      classify_pair md5 a b fuzz uc = some ("mixed_type", "conflict")) ∧
    (a.isSymlink = true → b.isSymlink = true →
      ((classify_pair md5 a b fuzz uc = some ("symlink", "target_identical") ↔
          ∃ t, a.symlinkTarget = some t ∧ b.symlinkTarget = some t) ∧
        ((¬ ∃ t, a.symlinkTarget = some t ∧ b.symlinkTarget = some t) →
          classify_pair md5 a b fuzz uc = some ("symlink", "target_diverged")))) := by
  constructor
  · intro h
    simp [classify_pair, h]
  · intro ha hb
    have hcl : classify_pair md5 a b fuzz uc =
        match a.symlinkTarget, b.symlinkTarget with
        | some ta, some tb =>
            if ta = tb then some ("symlink", "target_identical")
            else some ("symlink", "target_diverged")
        | _, _ => some ("symlink", "target_diverged") := by
      simp [classify_pair, ha, hb]
    rcases hta : a.symlinkTarget with _ | ta <;> rcases htb : b.symlinkTarget with _ | tb <;>
      rw [hta, htb] at hcl <;> simp [hcl, hta, htb]
    by_cases hteq : ta = tb <;> simp [hteq]
    exact fun hh => hteq hh.symm

/-- Witness instantiating `c5_symlink_rules` at a symlink/regular pair and
at two symlinks with equal targets. -/
theorem c5_witness :
    ((sampleLink "l.txt" (some "/t") "/a/l.txt").isSymlink ≠
        (sampleReg "l.txt" 4 1000 "/b/l.txt").isSymlink →
      classify_pair (fun _ => "h") (sampleLink "l.txt" (some "/t") "/a/l.txt")
        (sampleReg "l.txt" 4 1000 "/b/l.txt") 5 true = some ("mixed_type", "conflict")) ∧
    ((sampleLink "l.txt" (some "/t") "/a/l.txt").isSymlink ≠
        (sampleReg "l.txt" 4 1000 "/b/l.txt").isSymlink) ∧
    classify_pair (fun _ => "h") (sampleLink "l.txt" (some "/t") "/a/l.txt")
      (sampleLink "l.txt" (some "/t") "/b/l.txt") 5 true =
      some ("symlink", "target_identical") :=
  ⟨(c5_symlink_rules (fun _ => "h") (sampleLink "l.txt" (some "/t") "/a/l.txt")
      (sampleReg "l.txt" 4 1000 "/b/l.txt") 5 true).1,
    by decide,
    ((c5_symlink_rules (fun _ => "h") (sampleLink "l.txt" (some "/t") "/a/l.txt")
        (sampleLink "l.txt" (some "/t") "/b/l.txt") 5 true).2 rfl rfl).1.2
      ⟨"/t", rfl, rfl⟩⟩

/-- Claim C10: records landing in one MatchKey bucket across scans are
either all symlinks or all regular files, because a regular file's size is
never the `-1` sentinel; hence the `mixed_type` branch of the main
aggregation loop is unreachable and such conflicts arise only from the
recovery pass. -/
theorem c10_no_mixed_in_index (skipA skipB : Bool) (ea eb : List FsEntry)
    (r1 r2 : FileRecord) (h1 : r1 ∈ scan_directory skipA ea)
    (h2 : r2 ∈ scan_directory skipB eb) (hk : matchKey r1 = matchKey r2) :
    r1.isSymlink = r2.isSymlink ∧
      ∀ (md5 : String → String) (fuzz : Int) (uc : Bool),
        classify_pair md5 r1 r2 fuzz uc ≠ some ("mixed_type", "conflict") := by
  have i1 := scan_size_inv h1
  have i2 := scan_size_inv h2
  have hsz : r1.size = r2.size := congrArg Prod.snd hk
  have hsym : r1.isSymlink = r2.isSymlink := by
    cases e1 : r1.isSymlink <;> cases e2 : r2.isSymlink
    · rfl
    · have u1 := i1.2 e1
      have u2 := i2.1 e2
      omega
    · have u1 := i1.1 e1
      have u2 := i2.2 e2
      omega
    · rfl
  exact ⟨hsym, fun md5 fuzz uc => classify_pair_mixed_only hsym⟩

/-- Witness instantiating `c10_no_mixed_in_index` at two one-file scans of
the same regular file name and size. -/
theorem c10_witness :
    scanEntry (.regular "f.txt" "f.txt" "/a/f.txt" "." (some (4, 1000))) ∈
      scan_directory true [.regular "f.txt" "f.txt" "/a/f.txt" "." (some (4, 1000))] ∧
    scanEntry (.regular "f.txt" "f.txt" "/b/f.txt" "." (some (4, 2000))) ∈
      scan_directory true [.regular "f.txt" "f.txt" "/b/f.txt" "." (some (4, 2000))] ∧
    matchKey (scanEntry (.regular "f.txt" "f.txt" "/a/f.txt" "." (some (4, 1000)))) =
      matchKey (scanEntry (.regular "f.txt" "f.txt" "/b/f.txt" "." (some (4, 2000)))) ∧
    ((scanEntry (.regular "f.txt" "f.txt" "/a/f.txt" "." (some (4, 1000)))).isSymlink =
        (scanEntry (.regular "f.txt" "f.txt" "/b/f.txt" "." (some (4, 2000)))).isSymlink ∧
      ∀ (md5 : String → String) (fuzz : Int) (uc : Bool),
        classify_pair md5 (scanEntry (.regular "f.txt" "f.txt" "/a/f.txt" "." (some (4, 1000))))
          (scanEntry (.regular "f.txt" "f.txt" "/b/f.txt" "." (some (4, 2000)))) fuzz uc ≠
          some ("mixed_type", "conflict")) :=
  ⟨by decide, by decide, by decide,
    c10_no_mixed_in_index true true
      [.regular "f.txt" "f.txt" "/a/f.txt" "." (some (4, 1000))]
      [.regular "f.txt" "f.txt" "/b/f.txt" "." (some (4, 2000))]
      (scanEntry (.regular "f.txt" "f.txt" "/a/f.txt" "." (some (4, 1000))))
      (scanEntry (.regular "f.txt" "f.txt" "/b/f.txt" "." (some (4, 2000))))
      (by decide) (by decide) (by decide)⟩

/-- The base of a `max` fold bounds the fold from below. -/
theorem foldr_max_base_le (l : List Nat) (b : Nat) : b ≤ l.foldr max b := by
  induction l with
  | nil => simp
  | cons x xs ih => exact le_trans ih (le_max_right x (xs.foldr max b))

/-- Every member of the list bounds a `max` fold from below. -/
theorem mem_le_foldr_max {l : List Nat} {x : Nat} (b : Nat) (h : x ∈ l) :
    x ≤ l.foldr max b := by
  induction l with
  | nil => cases h
  | cons y ys ih =>
    rcases List.mem_cons.1 h with rfl | h2
    · exact le_max_left _ _
    · exact le_trans (ih h2) (le_max_right _ _)

/-- A `max` absorbed into the base of a `max` fold can be pulled out. -/
theorem foldr_max_absorb (l : List Nat) (b r : Nat) :
    l.foldr max (max r b) = max r (l.foldr max b) := by
  induction l with
  | nil => rfl
  | cons x xs ih =>
    simp only [List.foldr_cons, ih]
    exact max_left_comm x r (xs.foldr max b)

/-- If the pair loop finishes in a normal group, the final content and
version are the `max`-folds of the pairwise ranks over the running start,
and every pair was classified (no `None` and, implicitly, no diversion). -/
theorem aggLoop_group_spec (md5 : String → String) (fuzz : Int) (uc : Bool) :
    ∀ (pairs : List (FileRecord × FileRecord)) (gc gv c v : String),
      aggLoop md5 fuzz uc pairs gc gv = .group c v →
      content_rank c =
          (pairs.map (pairContentRank md5 fuzz uc)).foldr max (content_rank gc) ∧
        version_rank v =
          (pairs.map (pairVersionRank md5 fuzz uc)).foldr max (version_rank gv) ∧
        ∀ p ∈ pairs, ∃ cm vs, classify_pair md5 p.1 p.2 fuzz uc = some (cm, vs) := by
  intro pairs
  induction pairs with
  | nil =>
    intro gc gv c v h
    simp only [aggLoop] at h
    rcases h with ⟨rfl, rfl⟩
    simp
  | cons pr rest ih =>
    intro gc gv c v h
    rcases pr with ⟨a, b⟩
    simp only [aggLoop] at h
    split at h
    · exact absurd h (by simp)
    · rename_i cm vs hcl
      by_cases hsym : cm = "symlink"
      · rw [if_pos hsym] at h; exact absurd h (by simp)
      · rw [if_neg hsym] at h
        by_cases hmix : cm = "mixed_type"
        · rw [if_pos hmix] at h; exact absurd h (by simp)
        · rw [if_neg hmix] at h
          obtain ⟨ihc, ihv, ihall⟩ := ih _ _ _ _ h
          have hfa : pairContentRank md5 fuzz uc (a, b) = content_rank cm := by
            simp [pairContentRank, hcl]
          have hfav : pairVersionRank md5 fuzz uc (a, b) = version_rank vs := by
            simp [pairVersionRank, hcl]
          have hrank : content_rank (if content_rank gc < content_rank cm then cm else gc) =
              max (content_rank cm) (content_rank gc) := by
            split
            · next hlt => omega
            · next hge => omega
          have hrankv : version_rank (if version_rank gv < version_rank vs then vs else gv) =
              max (version_rank vs) (version_rank gv) := by
            split
            · next hlt => omega
            · next hge => omega
          refine ⟨?_, ?_, ?_⟩
          · rw [List.map_cons, List.foldr_cons, hfa, ← foldr_max_absorb, ← hrank]
            exact ihc
          · rw [List.map_cons, List.foldr_cons, hfav, ← foldr_max_absorb, ← hrankv]
            exact ihv
          · intro p hp
            rcases List.mem_cons.1 hp with rfl | hp2
            · exact ⟨cm, vs, hcl⟩
            · exact ihall p hp2

/-- Claim C4: when a MatchKey group over at least two directories completes
aggregation as a normal group, its content and version verdicts sit at the
maximum rank over all unordered pairwise verdicts, and in particular never
below any contributing pairwise verdict. -/
theorem c4_aggregate_max (md5 : String → String) (fuzz : Int) (uc : Bool)
    (recs : List FileRecord) (c v : String) (_hlen : 2 ≤ recs.length)
    (hgrp : aggregate_key md5 fuzz uc recs = .group c v) :
    content_rank c = ((pairCombos recs).map (pairContentRank md5 fuzz uc)).foldr max 0 ∧
    version_rank v = ((pairCombos recs).map (pairVersionRank md5 fuzz uc)).foldr max 0 ∧
    ∀ p ∈ pairCombos recs, ∃ cm vs,
      classify_pair md5 p.1 p.2 fuzz uc = some (cm, vs) ∧
      content_rank cm ≤ content_rank c ∧ version_rank vs ≤ version_rank v := by
  obtain ⟨hc, hv, hall⟩ :=
    aggLoop_group_spec md5 fuzz uc (pairCombos recs) "identical" "same" c v hgrp
  refine ⟨hc, hv, ?_⟩
  intro p hp
  obtain ⟨cm, vs, hcl⟩ := hall p hp
  refine ⟨cm, vs, hcl, ?_, ?_⟩
  · have hfa : pairContentRank md5 fuzz uc p = content_rank cm := by
      simp [pairContentRank, hcl]
    rw [← hfa, hc]
    exact mem_le_foldr_max _ (List.mem_map_of_mem _ hp)
  · have hfav : pairVersionRank md5 fuzz uc p = version_rank vs := by
      simp [pairVersionRank, hcl]
    rw [← hfav, hv]
    exact mem_le_foldr_max _ (List.mem_map_of_mem _ hp)

/-- Witness instantiating `c4_aggregate_max` at a two-directory key whose
single pair is `(unverified, diverged)` (checksumming off, mtimes apart). -/
theorem c4_witness :
    2 ≤ ([sampleReg "f.txt" 5 1000 "/a/f.txt", sampleReg "f.txt" 5 9000 "/b/f.txt"]).length ∧
    aggregate_key (fun _ => "") 5 false
        [sampleReg "f.txt" 5 1000 "/a/f.txt", sampleReg "f.txt" 5 9000 "/b/f.txt"] =
      .group "unverified" "diverged" ∧
    (content_rank "unverified" =
        ((pairCombos [sampleReg "f.txt" 5 1000 "/a/f.txt",
            sampleReg "f.txt" 5 9000 "/b/f.txt"]).map
          (pairContentRank (fun _ => "") 5 false)).foldr max 0 ∧
      version_rank "diverged" =
        ((pairCombos [sampleReg "f.txt" 5 1000 "/a/f.txt",
            sampleReg "f.txt" 5 9000 "/b/f.txt"]).map
          (pairVersionRank (fun _ => "") 5 false)).foldr max 0 ∧
      ∀ p ∈ pairCombos [sampleReg "f.txt" 5 1000 "/a/f.txt",
          sampleReg "f.txt" 5 9000 "/b/f.txt"], ∃ cm vs,
        classify_pair (fun _ => "") p.1 p.2 5 false = some (cm, vs) ∧
        content_rank cm ≤ content_rank "unverified" ∧
        version_rank vs ≤ version_rank "diverged") :=
  ⟨by decide, by decide,
    c4_aggregate_max (fun _ => "") 5 false
      [sampleReg "f.txt" 5 1000 "/a/f.txt", sampleReg "f.txt" 5 9000 "/b/f.txt"]
      "unverified" "diverged" (by decide) (by decide)⟩

/-- A character list never starts with itself extended by one character. -/
theorem charsLead_append_self (l : List Char) (c : Char) :
    charsLead (l ++ [c]) l = false := by
  induction l with
  | nil => rfl
  | cons a asx ih => simp [charsLead, ih]

/-- No path starts with itself followed by `"/"`. -/
theorem strLeads_self_slash (s : String) : strLeads (s ++ "/") s = false := by
  unfold strLeads
  rw [String.data_append]
  exact charsLead_append_self s.data '/'

/-- The first rollup branch taken apart: subtree status is `identical`
exactly when every comparison in the closed descendant set is. -/
theorem subtree_identical_iff (fcs : List FolderComp) (path : String) :
    subtree_status fcs path = "identical" ↔
      ∀ d ∈ descendantsOf fcs path, d.relationship = "identical" := by
  unfold subtree_status
  by_cases hall : ∀ d ∈ descendantsOf fcs path, d.relationship = "identical"
  · rw [if_pos (by simpa using hall)]
    exact iff_of_true rfl hall
  · rw [if_neg (by simpa using hall)]
    by_cases hany : ∃ d ∈ descendantsOf fcs path, d.relationship = "overlap"
    · rw [if_pos (by simpa using hany)]
      exact iff_of_false (by decide) hall
    · rw [if_neg (by simpa using hany)]
      exact iff_of_false (by decide) hall

/-- The second rollup branch: among non-identical subtrees, status is
`overlap` exactly when some descendant comparison overlaps. -/
theorem subtree_overlap_iff (fcs : List FolderComp) (path : String) :
    subtree_status fcs path = "overlap" ↔
      (¬ ∀ d ∈ descendantsOf fcs path, d.relationship = "identical") ∧
        ∃ d ∈ descendantsOf fcs path, d.relationship = "overlap" := by
  unfold subtree_status
  by_cases hall : ∀ d ∈ descendantsOf fcs path, d.relationship = "identical"
  · rw [if_pos (by simpa using hall)]
    exact iff_of_false (by decide) (fun h => h.1 hall)
  · rw [if_neg (by simpa using hall)]
    by_cases hany : ∃ d ∈ descendantsOf fcs path, d.relationship = "overlap"
    · rw [if_pos (by simpa using hany)]
      exact iff_of_true rfl ⟨hall, hany⟩
    · rw [if_neg (by simpa using hany)]
      exact iff_of_false (by decide) (fun h => hany h.2)

/-- The third rollup branch: status is `partial` exactly when the subtree is
not all-identical and no descendant comparison overlaps. -/
theorem subtree_partial_iff (fcs : List FolderComp) (path : String) :
    subtree_status fcs path = "partial" ↔
      (¬ ∀ d ∈ descendantsOf fcs path, d.relationship = "identical") ∧
        ¬ ∃ d ∈ descendantsOf fcs path, d.relationship = "overlap" := by
  unfold subtree_status
  by_cases hall : ∀ d ∈ descendantsOf fcs path, d.relationship = "identical"
  · rw [if_pos (by simpa using hall)]
    exact iff_of_false (by decide) (fun h => h.1 hall)
  · rw [if_neg (by simpa using hall)]
    by_cases hany : ∃ d ∈ descendantsOf fcs path, d.relationship = "overlap"
    · rw [if_pos (by simpa using hany)]
      exact iff_of_false (by decide) (fun h => h.2 hany)
    · rw [if_neg (by simpa using hany)]
      exact iff_of_true rfl ⟨hall, hany⟩

/-- Claim C6: a node's subtree status is `identical` exactly when every
comparison in its closed descendant set (all comparisons for the synthetic
root) is identical; otherwise it is `overlap` exactly when some descendant
overlaps, and `partial` otherwise. -/
theorem c6_subtree_rollup (fcs : List FolderComp) (path : String) :
    (subtree_status fcs path = "identical" ↔
      ∀ d ∈ descendantsOf fcs path, d.relationship = "identical") ∧
    (subtree_status fcs path = "overlap" ↔
      (¬ ∀ d ∈ descendantsOf fcs path, d.relationship = "identical") ∧
        ∃ d ∈ descendantsOf fcs path, d.relationship = "overlap") ∧
    (subtree_status fcs path = "partial" ↔
      (¬ ∀ d ∈ descendantsOf fcs path, d.relationship = "identical") ∧
        ¬ ∃ d ∈ descendantsOf fcs path, d.relationship = "overlap") :=
  ⟨subtree_identical_iff fcs path, subtree_overlap_iff fcs path,
    subtree_partial_iff fcs path⟩

/-- Witness instantiating `c6_subtree_rollup` at a one-node comparison
list. -/
theorem c6_witness :
    (subtree_status [({ path := "a", relationship := "identical" } : FolderComp)] "a" =
        "identical" ↔
      ∀ d ∈ descendantsOf [({ path := "a", relationship := "identical" } : FolderComp)] "a",
        d.relationship = "identical") ∧
    (subtree_status [({ path := "a", relationship := "identical" } : FolderComp)] "a" =
        "overlap" ↔
      (¬ ∀ d ∈ descendantsOf [({ path := "a", relationship := "identical" } : FolderComp)] "a",
          d.relationship = "identical") ∧
        ∃ d ∈ descendantsOf [({ path := "a", relationship := "identical" } : FolderComp)] "a",
          d.relationship = "overlap") ∧
    (subtree_status [({ path := "a", relationship := "identical" } : FolderComp)] "a" =
        "partial" ↔
      (¬ ∀ d ∈ descendantsOf [({ path := "a", relationship := "identical" } : FolderComp)] "a",
          d.relationship = "identical") ∧
        ¬ ∃ d ∈ descendantsOf [({ path := "a", relationship := "identical" } : FolderComp)] "a",
          d.relationship = "overlap") :=
  c6_subtree_rollup [{ path := "a", relationship := "identical" }] "a"

/-- Claim C7 counterexample: on two directories that share a root file and a
`photos` subfolder, both the synthetic root and `photos` are selected as
safe-to-delete roots, yet `photos` lies below the synthetic root in the
claim's folder-descendant relation. -/
theorem c7_counterexample :
    ({ path := "(root)", relationship := "identical" } : FolderComp) ∈
        safe_to_delete (folderComparisons cexScanC7) ∧
    ({ path := "photos", relationship := "identical" } : FolderComp) ∈
        safe_to_delete (folderComparisons cexScanC7) ∧
    folderDescendant "photos" "(root)" ∧ "photos" ≠ "(root)" :=
  ⟨by decide, by decide, Or.inl ⟨rfl, by decide⟩, by decide⟩

/-- Claim C7 amended: the safe-to-delete roots form an antichain under
string-prefix descendance — no selected root's path extends another selected
root's path with `"/"`.  (The synthetic root `"(root)"` can co-occur with
other roots because no path literally extends `"(root)/"`.) -/
theorem c7_antichain_amended (fcs : List FolderComp) (fc1 fc2 : FolderComp)
    (h1 : fc1 ∈ safe_to_delete fcs) (h2 : fc2 ∈ safe_to_delete fcs) :
    strLeads (fc2.path ++ "/") fc1.path = false := by
  unfold safe_to_delete at h1 h2
  have h1' := List.mem_filter.1 h1
  have h2' := List.mem_filter.1 h2
  by_contra hcon
  have htrue : strLeads (fc2.path ++ "/") fc1.path = true := by
    cases hb : strLeads (fc2.path ++ "/") fc1.path
    · exact absurd hb hcon
    · rfl
  have hne : fc1.path ≠ fc2.path := by
    intro heq
    rw [heq] at htrue
    rw [strLeads_self_slash] at htrue
    cases htrue
  have hnone := h1'.2
  rw [Bool.not_eq_true'] at hnone
  rw [List.any_eq_false] at hnone
  have hx := hnone fc2 h2'.1
  apply hx
  simp [hne, htrue]

/-- Witness instantiating `c7_antichain_amended` at a one-node safe set. -/
theorem c7_witness :
    ({ path := "a", relationship := "identical" } : FolderComp) ∈
        safe_to_delete [({ path := "a", relationship := "identical" } : FolderComp)] ∧
    strLeads
        (({ path := "a", relationship := "identical" } : FolderComp).path ++ "/")
        (({ path := "a", relationship := "identical" } : FolderComp).path) = false :=
  ⟨by decide,
    c7_antichain_amended [{ path := "a", relationship := "identical" }]
      { path := "a", relationship := "identical" }
      { path := "a", relationship := "identical" } (by decide) (by decide)⟩

/-- `pairRel` answers `identical` exactly on equal sets. -/
theorem pairRel_identical_iff (sa sb : Finset String) :
    pairRel sa sb = "identical" ↔ sa = sb := by
  unfold pairRel
  split
  · next h => simp [h]
  · next h =>
    split
    · simp [h]
    · split <;> simp [h]

/-- `pairRel` only ever answers one of its four tags. -/
theorem pairRel_cases (sa sb : Finset String) :
    pairRel sa sb = "identical" ∨ pairRel sa sb = "subset" ∨
      pairRel sa sb = "superset" ∨ pairRel sa sb = "overlap" := by
  unfold pairRel
  split
  · exact Or.inl rfl
  · split
    · exact Or.inr (Or.inl rfl)
    · split
      · exact Or.inr (Or.inr (Or.inl rfl))
      · exact Or.inr (Or.inr (Or.inr rfl))

/-- Both components of an unordered pair come from the underlying list. -/
theorem mem_pairCombos {p : α × α} :
    ∀ {l : List α}, p ∈ pairCombos l → p.1 ∈ l ∧ p.2 ∈ l := by
  intro l
  induction l with
  | nil => intro h; cases h
  | cons x xs ih =>
    intro h
    rcases List.mem_append.1 h with h1 | h2
    · rcases List.mem_map.1 h1 with ⟨y, hy, rfl⟩
      exact ⟨List.mem_cons_self x xs, List.mem_cons_of_mem x hy⟩
    · obtain ⟨ha, hb⟩ := ih h2
      exact ⟨List.mem_cons_of_mem x ha, List.mem_cons_of_mem x hb⟩

/-- The head pairs with every later element. -/
theorem pair_mem_pairCombos_head {x y : α} {xs : List α} (hy : y ∈ xs) :
    (x, y) ∈ pairCombos (x :: xs) :=
  List.mem_append_left _ (List.mem_map_of_mem _ hy)

/-- A relationship of `identical` forces all the compared sets equal. -/
theorem relationship_identical_all_eq (sets : List (Finset String))
    (s t : Finset String) (hs : s ∈ sets) (ht : t ∈ sets)
    (hrel : relationship sets = "identical") : s = t := by
  cases sets with
  | nil => cases hs
  | cons s0 rest =>
    simp only [relationship] at hrel
    by_cases hall : ∀ x ∈ s0 :: rest, x = s0
    · rw [hall s hs, hall t ht]
    · rw [if_neg (by simpa using hall)] at hrel
      by_cases hfin : ((pairCombos (s0 :: rest)).map (fun p => pairRel p.1 p.2)).toFinset =
          {"identical"}
      · have hpair : ∀ p ∈ pairCombos (s0 :: rest), pairRel p.1 p.2 = "identical" := by
          intro p hp
          have hm := List.mem_toFinset.2
            (List.mem_map_of_mem (fun p => pairRel p.1 p.2) hp)
          rw [hfin] at hm
          simpa using hm
        have hs' : ∀ x ∈ s0 :: rest, x = s0 := by
          intro x hx
          rcases List.mem_cons.1 hx with rfl | hx2
          · rfl
          · exact ((pairRel_identical_iff s0 x).1
              (hpair _ (pair_mem_pairCombos_head hx2))).symm
        rw [hs' s hs, hs' t ht]
      · rw [if_neg hfin] at hrel
        split at hrel
        · exact absurd hrel (by decide)
        · split at hrel
          · exact absurd hrel (by decide)
          · exact absurd hrel (by decide)

/-- Claim C1 counterexample: the two directories of `cexScanC1` each hold
only `photos/x.txt`, with equal name, size and mtime but different content
(the digests disagree and the classifier answers `(different, phantom)`);
the folder analysis nevertheless selects `photos` as a safe-to-delete
root, because safe-to-delete is computed from file-name sets alone. -/
theorem c1_counterexample :
    cexScanC1 = [("A", [cexXA]), ("B", [cexXB])] ∧
    ({ path := "photos", relationship := "identical" } : FolderComp) ∈
        safe_to_delete (folderComparisons cexScanC1) ∧
    cexXA.folder = "photos" ∧ cexXB.folder = "photos" ∧
    lowerStr cexXA.relPath = lowerStr cexXB.relPath ∧
    classify_pair cexMd5 cexXA cexXB 5 true = some ("different", "phantom") ∧
    cexMd5 cexXA.fullPath ≠ cexMd5 cexXB.fullPath := by
  decide

/-- Claim C1 amended: a safe-to-delete root only guarantees that every
comparison in its descendant set has relationship `identical`, which in turn
only means the present directories agree on the direct child file-NAME sets
at each such folder; byte-level content identity is not established. -/
theorem c1_amended :
    (∀ (fcs : List FolderComp) (fc : FolderComp), fc ∈ safe_to_delete fcs →
      ∀ d ∈ descendantsOf fcs fc.path, d.relationship = "identical") ∧
    (∀ (sets : List (Finset String)) (s t : Finset String),
      s ∈ sets → t ∈ sets → relationship sets = "identical" → s = t) := by
  constructor
  · intro fcs fc hmem
    unfold safe_to_delete at hmem
    have h1 := (List.mem_filter.1 (List.mem_filter.1 hmem).1).2
    have hst : subtree_status fcs fc.path = "identical" := by simpa using h1
    exact (subtree_identical_iff fcs fc.path).1 hst
  · exact relationship_identical_all_eq

/-- Witness instantiating both halves of `c1_amended` at one-element
inputs. -/
theorem c1_witness :
    (∀ d ∈ descendantsOf [({ path := "a", relationship := "identical" } : FolderComp)]
        ({ path := "a", relationship := "identical" } : FolderComp).path,
      d.relationship = "identical") ∧
    ({"n"} : Finset String) = {"n"} :=
  ⟨c1_amended.1 [{ path := "a", relationship := "identical" }]
      { path := "a", relationship := "identical" } (by decide),
    c1_amended.2 [{"n"}, {"n"}] {"n"} {"n"} (by decide) (by decide) (by decide)⟩

/-- Claim C8: on at least two present directories, the source's folder
relationship computation agrees with the specification's formulation —
identical when all direct file-name sets are pairwise equal, otherwise
overlap when any pair overlaps, and subset/superset when only containment
(possibly with equal pairs) was seen. -/
theorem c8_folder_relationship (sets : List (Finset String))
    (hlen : 2 ≤ sets.length) :
    relationship sets = relationship_spec sets := by
  match sets, hlen with
  | s0 :: s1 :: rest, _ =>
    by_cases hall : ∀ x ∈ s0 :: s1 :: rest, x = s0
    · have hA : ((s0 :: s1 :: rest).all fun s => decide (s = s0)) = true := by
        simpa using hall
      have hB : ∀ p ∈ pairCombos (s0 :: s1 :: rest), pairRel p.1 p.2 = "identical" := by
        intro p hp
        obtain ⟨h1, h2⟩ := mem_pairCombos hp
        rw [pairRel_identical_iff, hall _ h1, hall _ h2]
      have hspec : (((pairCombos (s0 :: s1 :: rest)).map fun p => pairRel p.1 p.2).all
          fun r => decide (r = "identical")) = true := by
        simp only [List.all_eq_true, decide_eq_true_eq]
        intro r hr
        obtain ⟨p, hp, rfl⟩ := List.mem_map.1 hr
        exact hB p hp
      simp only [relationship, relationship_spec]
      rw [if_pos hA, if_pos hspec]
    · have hA' : ¬ (((s0 :: s1 :: rest).all fun s => decide (s = s0)) = true) := by
        simpa using hall
      have hnotall : ¬ ((((pairCombos (s0 :: s1 :: rest)).map fun p => pairRel p.1 p.2).all
          fun r => decide (r = "identical")) = true) := by
        intro hcontra
        apply hall
        simp only [List.all_eq_true, decide_eq_true_eq] at hcontra
        intro x hx
        rcases List.mem_cons.1 hx with rfl | hx2
        · rfl
        · exact ((pairRel_identical_iff s0 x).1
            (hcontra _ (List.mem_map_of_mem _ (pair_mem_pairCombos_head hx2)))).symm
      have hfin : ¬ (((pairCombos (s0 :: s1 :: rest)).map fun p =>
          pairRel p.1 p.2).toFinset = {"identical"}) := by
        intro hcontra
        apply hnotall
        simp only [List.all_eq_true, decide_eq_true_eq]
        intro r hr
        have hm := List.mem_toFinset.2 hr
        rw [hcontra] at hm
        simpa using hm
      simp only [relationship, relationship_spec]
      rw [if_neg hA', if_neg hnotall, if_neg hfin]
      by_cases hov : "overlap" ∈ (pairCombos (s0 :: s1 :: rest)).map fun p => pairRel p.1 p.2
      · rw [if_pos hov, if_pos hov]
      · rw [if_neg hov, if_neg hov]
        by_cases hss : ("subset" ∈ (pairCombos (s0 :: s1 :: rest)).map fun p =>
            pairRel p.1 p.2) ∨
            ("superset" ∈ (pairCombos (s0 :: s1 :: rest)).map fun p => pairRel p.1 p.2)
        · rw [if_pos hss]
        · exfalso
          apply hnotall
          simp only [List.all_eq_true, decide_eq_true_eq]
          intro r hr
          obtain ⟨p, hp, rfl⟩ := List.mem_map.1 hr
          rcases pairRel_cases p.1 p.2 with h | h | h | h
          · exact h
          · exact absurd (Or.inl (h ▸ List.mem_map_of_mem _ hp)) hss
          · exact absurd (Or.inr (h ▸ List.mem_map_of_mem _ hp)) hss
          · exact absurd (h ▸ List.mem_map_of_mem _ hp) hov

/-- Witness instantiating `c8_folder_relationship` at a strict-subset
pair of name sets. -/
theorem c8_witness :
    2 ≤ ([({"a"} : Finset String), {"a", "b"}]).length ∧
    relationship [({"a"} : Finset String), {"a", "b"}] =
      relationship_spec [({"a"} : Finset String), {"a", "b"}] :=
  ⟨by decide, c8_folder_relationship [{"a"}, {"a", "b"}] (by decide)⟩

/-- Every record surfaced by `presentAt` was found under the queried
lowered relative path. -/
theorem presentAt_snd_relPath {scanned : List (String × List FileRecord)}
    {rp : String} {p : String × FileRecord} (hp : p ∈ presentAt scanned rp) :
    lowerStr p.2.relPath = rp := by
  unfold presentAt at hp
  obtain ⟨lr, _, hmap⟩ := List.mem_filterMap.1 hp
  cases hidx : relPathIndex lr.2 rp with
  | none => rw [hidx] at hmap; cases hmap
  | some r =>
    rw [hidx, Option.map_some'] at hmap
    injection hmap with hmap2
    subst hmap2
    unfold relPathIndex at hidx
    have hfind := List.find?_some hidx
    simpa using hfind

/-- A group emitted for a path carries that path (lowered). -/
theorem recoverAt_key {scanned : List (String × List FileRecord)}
    {already : List String} :
    ∀ x g, recoverAt scanned already x = some g → lowerStr g.relPath = x := by
  intro x g h
  unfold recoverAt at h
  split at h
  · cases h
  · split at h
    · cases h
    · split at h
      · cases h
      · split at h
        · cases h
        · split at h
          · cases h
          · rename_i p rest hps
            injection h with h2
            subst h2
            exact presentAt_snd_relPath (hps ▸ List.mem_cons_self p rest)

/-- Every group the recovery pass emits is a `mixed_type`/`conflict`
group. -/
theorem recoverAt_fields {scanned : List (String × List FileRecord)}
    {already : List String} :
    ∀ x g, recoverAt scanned already x = some g →
      g.contentMatch = "mixed_type" ∧ g.versionStatus = "conflict" := by
  intro x g h
  unfold recoverAt at h
  split at h
  · cases h
  · split at h
    · cases h
    · split at h
      · cases h
      · split at h
        · cases h
        · split at h
          · cases h
          · injection h with h2
            subst h2
            exact ⟨rfl, rfl⟩

/-- One success on a duplicate-free list keyed back to its origin yields
exactly one matching element in the filter-map. -/
theorem count_key_filterMap {α β : Type} [DecidableEq α] (f : α → Option β)
    (key : β → α) (hkey : ∀ x g, f x = some g → key g = x) :
    ∀ (L : List α), L.Nodup → ∀ x ∈ L, (f x).isSome →
      ((L.filterMap f).filter (fun g => decide (key g = x))).length = 1 := by
  intro L
  induction L with
  | nil => intro _ x hx; cases hx
  | cons a as ih =>
    intro hnd x hx hsome
    have hnd' := (List.nodup_cons.1 hnd).2
    have hna := (List.nodup_cons.1 hnd).1
    rcases List.mem_cons.1 hx with rfl | hx2
    · obtain ⟨g0, hg0⟩ := Option.isSome_iff_exists.1 hsome
      have hpred : decide (key g0 = x) = true := by simp [hkey _ _ hg0]
      have hzero : ((as.filterMap f).filter (fun g => decide (key g = x))).length = 0 := by
        rw [List.length_eq_zero, List.filter_eq_nil_iff]
        intro g hg
        obtain ⟨y, hy, hfy⟩ := List.mem_filterMap.1 hg
        simp only [decide_eq_true_eq, hkey _ _ hfy]
        intro heq
        exact hna (heq ▸ hy)
      simp [List.filterMap_cons, hg0, List.filter_cons, hpred, hzero]
    · have hax : x ≠ a := fun heq => hna (heq ▸ hx2)
      cases hfa : f a with
      | none =>
        rw [List.filterMap_cons, hfa]
        exact ih hnd' x hx2 hsome
      | some ga =>
        have hpred : decide (key ga = x) = false := by
          rw [hkey _ _ hfa]
          exact decide_eq_false (Ne.symm hax)
        have hrest := ih hnd' x hx2 hsome
        simp only [List.filterMap_cons, hfa, List.filter_cons, hpred, Bool.false_eq_true,
          if_false]
        exact hrest

/-- Claim C9: a relative path not yet classified, present in at least two
directories with at least one symlink and at least one regular record,
receives exactly one group from the recovery pass, and everything that pass
emits is a `mixed_type`/`conflict` conflict group (`classify_pair` does not
occur in the pass). -/
theorem c9_mixed_recovery (scanned : List (String × List FileRecord))
    (already : List String) (rp : String)
    (hmem : rp ∈ allRelPaths scanned) (hnot : rp ∉ already)
    (hlen : 2 ≤ (presentAt scanned rp).length)
    (hsym : ∃ p ∈ presentAt scanned rp, p.2.isSymlink = true)
    (hreg : ∃ p ∈ presentAt scanned rp, p.2.isSymlink = false) :
    ((recovery_pass scanned already).filter
        (fun g => decide (lowerStr g.relPath = rp))).length = 1 ∧
      ∀ g ∈ recovery_pass scanned already,
        g.contentMatch = "mixed_type" ∧ g.versionStatus = "conflict" := by
  constructor
  · have hisSome : (recoverAt scanned already rp).isSome := by
      unfold recoverAt
      rw [if_neg hnot]
      rw [if_neg (by omega : ¬ (presentAt scanned rp).length < 2)]
      obtain ⟨ps, hps, hpsym⟩ := hsym
      rw [if_neg (List.ne_nil_of_mem (List.mem_filter.2 ⟨hps, by simp [hpsym]⟩))]
      obtain ⟨pr, hpr, hpreg⟩ := hreg
      rw [if_neg (List.ne_nil_of_mem (List.mem_filter.2 ⟨hpr, by simp [hpreg]⟩))]
      cases hp : presentAt scanned rp with
      | nil => rw [hp] at hlen; simp at hlen
      | cons p rest => simp [hp]
    unfold recovery_pass
    exact count_key_filterMap (recoverAt scanned already)
      (fun g => lowerStr g.relPath) recoverAt_key (allRelPaths scanned)
      (List.nodup_dedup _) rp hmem hisSome
  · intro g hg
    unfold recovery_pass at hg
    obtain ⟨x, _, hfx⟩ := List.mem_filterMap.1 hg
    exact recoverAt_fields x g hfx

/-- Witness instantiating `c9_mixed_recovery` at a symlink in one directory
against a regular file in the other. -/
theorem c9_witness :
    "link.txt" ∈ allRelPaths [("A", [sampleLink "link.txt" (some "/t") "/a/link.txt"]),
        ("B", [sampleReg "link.txt" 4 1000 "/b/link.txt"])] ∧
    "link.txt" ∉ ([] : List String) ∧
    2 ≤ (presentAt [("A", [sampleLink "link.txt" (some "/t") "/a/link.txt"]),
        ("B", [sampleReg "link.txt" 4 1000 "/b/link.txt"])] "link.txt").length ∧
    (((recovery_pass [("A", [sampleLink "link.txt" (some "/t") "/a/link.txt"]),
          ("B", [sampleReg "link.txt" 4 1000 "/b/link.txt"])] []).filter
        (fun g => decide (lowerStr g.relPath = "link.txt"))).length = 1 ∧
      ∀ g ∈ recovery_pass [("A", [sampleLink "link.txt" (some "/t") "/a/link.txt"]),
          ("B", [sampleReg "link.txt" 4 1000 "/b/link.txt"])] [],
        g.contentMatch = "mixed_type" ∧ g.versionStatus = "conflict") :=
  ⟨by decide, by decide, by decide,
    c9_mixed_recovery
      [("A", [sampleLink "link.txt" (some "/t") "/a/link.txt"]),
        ("B", [sampleReg "link.txt" 4 1000 "/b/link.txt"])] [] "link.txt"
      (by decide) (by decide) (by decide)
      ⟨("A", sampleLink "link.txt" (some "/t") "/a/link.txt"), by decide, by decide⟩
      ⟨("B", sampleReg "link.txt" 4 1000 "/b/link.txt"), by decide, by decide⟩⟩
